import Mathlib

/-!
Shallow embedding of the coherence pass for built-in traits
(`src/compiler/rustc_typeck/src/coherence/builtin.rs` together with the
diagnostic payloads of `src/compiler/rustc_typeck/src/errors.rs`).

The four validators (`visit_implementation_of_drop`,
`visit_implementation_of_copy`, `coerce_unsized_info`,
`visit_implementation_of_dispatch_from_dyn`) are modelled as total
functions from an implementation record, the type context and the
collaborator oracles (inference-based type equality, layout, the
obligation solver) to the list of emitted diagnostics plus the inference
side effects that the source performs on the `InferCtxt`
(`sub_regions` calls, fully solved predicates, region resolution).
-/

/-- Mutability of a reference or raw pointer (`hir::Mutability`). -/
inductive Mutability where
  | not
  | mut
deriving DecidableEq

mutual

/-- The fragment of `ty::TyKind` that the pass inspects.  `adt` carries the
`DefId` of the definition and the substitution (`SubstsRef`) as a list of
type arguments; `param` is a bare generic parameter (`ty::Param`);
`error` is `ty::Error`; `prim` stands for any other rigid type
(primitives, foreign types, ...) identified by a code. -/
inductive RTy where
  | ref (r : Nat) (ty : RTy) (m : Mutability)
  | rawPtr (ty : RTy) (m : Mutability)
  | adt (did : Nat) (substs : RTys)
  | param (idx : Nat)
  | error
  | prim (code : Nat)
  | slice (ty : RTy)
  | array (ty : RTy) (len : Nat)
deriving DecidableEq

/-- A list of type arguments (the payload of a `SubstsRef`). -/
inductive RTys where
  | nil
  | cons (head : RTy) (tail : RTys)
deriving DecidableEq

end

/-- Lookup of the `idx`-th type argument, defaulting to the bare
parameter itself (models substitution acting as the identity outside its
domain). -/
def RTys.getP : RTys → Nat → RTy
  | .nil, idx => .param idx
  | .cons t _, 0 => t
  | .cons _ ts, n + 1 => ts.getP n

mutual

/-- Substitution of the generic type parameters: models `f.ty(tcx, substs)`
applied to the declared field type (`EarlyBinder::subst`). -/
def RTy.subst (s : RTys) : RTy → RTy
  | .ref r ty m => .ref r (ty.subst s) m
  | .rawPtr ty m => .rawPtr (ty.subst s) m
  | .adt did args => .adt did (RTy.substList s args)
  | .param idx => s.getP idx
  | .error => .error
  | .prim c => .prim c
  | .slice ty => .slice (ty.subst s)
  | .array ty n => .array (ty.subst s) n

/-- Substitution mapped over a list of type arguments. -/
def RTy.substList (s : RTys) : RTys → RTys
  | .nil => .nil
  | .cons t ts => .cons (t.subst s) (RTy.substList s ts)

end

mutual

/-- Rendering of a type, models `Ty::to_string` as used for diagnostic
text and for the `BTreeMap` grouping keys of the copy validator. -/
def RTy.toStr : RTy → String
  | .ref r ty m =>
      "&r" ++ toString r ++ (match m with | .not => " " | .mut => " mut ") ++ ty.toStr
  | .rawPtr ty m =>
      (match m with | .not => "*const " | .mut => "*mut ") ++ ty.toStr
  | .adt did args => "adt" ++ toString did ++ "<" ++ RTy.toStrList args ++ ">"
  | .param idx => "T" ++ toString idx
  | .error => "err"
  | .prim c => "prim" ++ toString c
  | .slice ty => "[" ++ ty.toStr ++ "]"
  | .array ty n => "[" ++ ty.toStr ++ "; " ++ toString n ++ "]"

/-- Comma-joined rendering of a list of type arguments. -/
def RTy.toStrList : RTys → String
  | .nil => ""
  | .cons t .nil => t.toStr
  | .cons t ts => t.toStr ++ ", " ++ RTy.toStrList ts

end

/-- One field of a struct variant: its name and its declared
(unsubstituted) type, i.e. `tcx.type_of(f.did)`. -/
structure FieldDef where
  name : String
  declaredTy : RTy
deriving DecidableEq

/-- The part of `ty::AdtDef` the pass consults: identity, locality
(`did.is_local()`), structness, the `repr` flags and the fields of the
single (non-enum) variant. -/
structure AdtDef where
  did : Nat
  isLocalDef : Bool
  isStruct : Bool
  reprC : Bool
  reprPacked : Bool
  fields : List FieldDef
deriving DecidableEq

/-- The type context: the ADT definitions, the `DefId` of the
`PhantomData` lang item, and `def_path_str`. -/
structure Tcx where
  adts : List AdtDef
  phantomDid : Nat
  defPath : Nat → String

/-- Definition lookup by `DefId` (total, defaulting to an empty
non-struct definition that no well-formed input refers to). -/
def Tcx.adt (tcx : Tcx) (did : Nat) : AdtDef :=
  (tcx.adts.find? (fun d => d.did == did)).getD ⟨did, false, false, false, false, []⟩

/-- Models `Ty::is_phantom_data`: an ADT whose definition is the
`PhantomData` lang item. -/
def Tcx.isPhantomData (tcx : Tcx) : RTy → Bool
  | .adt did _ => did == tcx.phantomDid
  | _ => false

/-- The fragment of `ty::Predicate` that the copy validator inspects: a
trait predicate (with its polarity, self type, printed trait path and
trait `DefId`) or any other predicate identified by its text. -/
inductive RPred where
  | traitPred (positive : Bool) (selfTy : RTy) (traitPath : String) (traitDefId : Nat)
  | otherPred (text : String)
deriving DecidableEq

/-- Rendering of a predicate (`Predicate::to_string`), used as the second
component of the copy validator grouping key. -/
def RPred.toStr : RPred → String
  | .traitPred _ selfTy path _ => selfTy.toStr ++ ": " ++ path
  | .otherPred s => s

/-- One `FulfillmentError` returned by `traits::fully_solve_bound`:
the unmet obligation predicate, the root obligation predicate and the
obligation cause span. -/
structure FulfillmentError where
  predicate : RPred
  rootPredicate : RPred
  span : Nat
deriving DecidableEq

/-- The layout facts consulted by the dispatch-from-dyn field filter:
`layout.is_zst()` and `layout.align.abi.bytes()`. -/
structure Layout where
  isZst : Bool
  alignBytes : Nat
deriving DecidableEq

/-- One infringing field reported by `can_type_implement_copy`:
`tcx.def_span(field.did)`, the span of the field type in the HIR,
and the field type under the impl substitution. -/
structure CopyField where
  fieldSpan : Nat
  fieldTySpan : Nat
  ty : RTy
deriving DecidableEq

/-- Result of `can_type_implement_copy` (`CopyImplementationError`),
with `none` standing for `Ok(())`. -/
inductive CopyImplementationError where
  | infringingFields (fields : List CopyField)
  | notAnAdt
  | hasDestructor
deriving DecidableEq

/-- The collaborator oracles.  `tyEq a b` models
`infcx.at(cause, param_env).eq(a, b)`: `none` for `Err(TypeError)` and
`some obls` for `Ok(InferOk)` carrying the residual obligations (only
their emptiness is inspected by the pass, so obligations are opaque
ids).  `regionEqOk a b` models `infcx.at(..).eq(r_a, r_b).is_ok()`.
`layoutOf` models `tcx.layout_of` (`none` for `Err`).  `solve t a b`
models `traits::fully_solve_obligation(s)` on the predicate
`a: Trait_t<b>` built by `predicate_for_trait_def`, returning the ids of
the fulfillment errors.  `regionErrs` are the region-outlives violations
that `check_region_obligations_and_report_errors` finds.  `canCopy`
models `can_type_implement_copy`.  `solveCopyBound sp ty` models
`traits::fully_solve_bound` for `ty: Copy` with cause span `sp` under a
fresh inference context. -/
structure Oracle where
  tyEq : RTy → RTy → Option (List Nat)
  regionEqOk : Nat → Nat → Bool
  layoutOf : RTy → Option Layout
  solve : Nat → RTy → RTy → List Nat
  regionErrs : List Nat
  canCopy : RTy → Option CopyImplementationError
  solveCopyBound : Nat → RTy → List FulfillmentError

/-- The payload variants of `InvalidDispatchFromDynDeclarationType`
(`errors.rs`). -/
inductive InvalidDispatchFromDynDeclarationType where
  | typesDifferTooMuch (sourcePath targetPath : String)
  | invalidRepr
  | invalidFields (fieldName : String) (tyA : String)
  | noCoercedFields
  | tooManyCoercedFields (coercedFieldsLen : Nat) (coercedFields : String)
  | notAStruct
deriving DecidableEq

/-- The structured diagnostics the pass can emit, one constructor per
error struct of `errors.rs` plus the two reports delegated to the
inference context (`report_mismatched_types` with
`TypeError::Mutability`, `report_fulfillment_errors`) and the region
errors reported by `check_region_obligations_and_report_errors`.
`copyCannotBeImplemented` is the single aggregated E0204 error: primary
span, one label span per infringing field, the `(type text, predicate
text) -> spans` notes in emission order, and the bound suggestions
handed to `suggest_constraining_type_params`. -/
inductive Diag where
  | dropImplOnWrongItem (span : Nat)
  | copyImplOnNonAdt (span : Nat)
  | copyImplOnTypeWithDtor (span : Nat)
  | copyCannotBeImplemented (span : Nat) (fieldLabels : List Nat)
      (notes : List ((String × String) × List Nat))
      (bounds : List (String × String × Option Nat))
  | invalidDispatchFromDynDeclaration (span : Nat)
      (errType : InvalidDispatchFromDynDeclarationType)
  | coerceUnsizedInvalidDefinition (span : Nat) (sourcePath targetPath : String)
  | coerceUnsizedNoCoercedField (span : Nat)
  | coerceUnsizedTooManyCoercedFields (span : Nat) (coercedFieldsLen : Nat)
      (coercedFields : String)
  | coerceUnsizedNotAStruct (span : Nat)
  | mismatchedTypesMutability (span : Nat)
  | fulfillmentErrors (errs : List Nat)
  | regionErrors (errs : List Nat)
deriving DecidableEq

/-- One implementation record: the spans the validators use
(whole impl span, `impl_.self_ty.span`, `tr.path.span`) and the
source/target types (`tcx.type_of(impl_did)` and
`trait_ref.substs.type_at(1)`). -/
structure ImplRecord where
  span : Nat
  selfTySpan : Nat
  traitPathSpan : Nat
  source : RTy
  target : RTy
deriving DecidableEq

/-- The `Unsize` lang item id. -/
def unsizeTraitId : Nat := 0

/-- The `CoerceUnsized` lang item id. -/
def coerceUnsizedTraitId : Nat := 1

/-- The `DispatchFromDyn` lang item id. -/
def dispatchFromDynTraitId : Nat := 2

/-- Models `visit_implementation_of_drop`: accept local ADTs and
`ty::Error` silently, otherwise emit `DropImplOnWrongItem` at the
self-type span. -/
def visit_implementation_of_drop (tcx : Tcx) (rec : ImplRecord) : List Diag :=
  match rec.source with
  | .adt did _ =>
      if (tcx.adt did).isLocalDef then [] else [.dropImplOnWrongItem rec.selfTySpan]
  | .error => []
  | _ => [.dropImplOnWrongItem rec.selfTySpan]

/-- Strict lexicographic order on the `(type text, predicate text)`
grouping keys, the iteration order of the `BTreeMap` of
`visit_implementation_of_copy`. -/
def keyLt (a b : String × String) : Prop :=
  a.1 < b.1 ∨ (a.1 = b.1 ∧ a.2 < b.2)

instance (a b : String × String) : Decidable (keyLt a b) := by
  unfold keyLt; infer_instance

/-- A `BTreeMap<(String, String), Vec<Span>>`: an association list kept
sorted by key, each key holding its spans in insertion order. -/
abbrev BTree : Type := List ((String × String) × List Nat)

/-- Models `errors.entry(key).or_default().push(span)` on the sorted
association list. -/
def btreeInsert (k : String × String) (v : Nat) : BTree → BTree
  | [] => [(k, [v])]
  | kv :: rest =>
      if keyLt k kv.1 then (k, [v]) :: kv :: rest
      else if k = kv.1 then (kv.1, kv.2 ++ [v]) :: rest
      else kv :: btreeInsert k v rest

/-- One bound suggestion handed to `suggest_constraining_type_params`:
the printed parameter, the printed trait path and the trait `DefId`. -/
abbrev Bound : Type := String × String × Option Nat

/-- Processing of one `FulfillmentError` inside the per-field loop of
`visit_implementation_of_copy`: record the `(field type text, predicate
text)` key when the unmet predicate differs from the root obligation,
then push a bound suggestion when the predicate is a positive trait
predicate whose self type is a bare parameter. -/
def copyErrStep (tyText : String) (acc : BTree × List Bound) (e : FulfillmentError) :
    BTree × List Bound :=
  let errs :=
    if e.predicate = e.rootPredicate then acc.1
    else btreeInsert (tyText, e.predicate.toStr) e.span acc.1
  let bnds :=
    match e.predicate with
    | .traitPred true selfTy path did =>
        (match selfTy with
         | .param _ => acc.2 ++ [(selfTy.toStr, path, some did)]
         | _ => acc.2)
    | _ => acc.2
  (errs, bnds)

/-- Processing of one infringing field: a fresh inference context is
spun up and the copy bound for the field type is fully solved with the
field type span as cause; every resulting error runs `copyErrStep`. -/
def copyFieldStep (o : Oracle) (acc : BTree × List Bound) (f : CopyField) :
    BTree × List Bound :=
  (o.solveCopyBound f.fieldTySpan f.ty).foldl (copyErrStep f.ty.toStr) acc

/-- The grouped obligation errors and collected bound suggestions after
all infringing fields were processed. -/
def copyErrorsAndBounds (o : Oracle) (fields : List CopyField) : BTree × List Bound :=
  fields.foldl (copyFieldStep o) ([], [])

/-- Models `visit_implementation_of_copy`: dispatch on the
`can_type_implement_copy` verdict; the infringing-fields arm builds the
single aggregated E0204 diagnostic. -/
def visit_implementation_of_copy (o : Oracle) (rec : ImplRecord) : List Diag :=
  match o.canCopy rec.source with
  | none => []
  | some (.infringingFields fields) =>
      let eb := copyErrorsAndBounds o fields
      [.copyCannotBeImplemented rec.traitPathSpan (fields.map (·.fieldSpan)) eb.1 eb.2]
  | some .notAnAdt => [.copyImplOnNonAdt rec.selfTySpan]
  | some .hasDestructor => [.copyImplOnTypeWithDtor rec.span]

/-- `CoerceUnsizedInfo`: the custom coercion kind,
`CustomCoerceUnsized::Struct i` modelled as `some i`. -/
structure CoerceUnsizedInfo where
  custom_kind : Option Nat
deriving DecidableEq

/-- The result of `coerce_unsized_info`: the emitted diagnostics, the
`sub_regions` calls recorded on the inference context (a pair `(a, b)`
models `sub_regions(origin, a, b)`, the constraint that `a` is a
subregion of `b`, i.e. that `b` outlives `a`), the predicates
registered and fully solved (trait id, source, target), whether
outstanding region obligations were resolved at the end, and the
returned `CoerceUnsizedInfo`. -/
structure CoerceOut where
  diags : List Diag
  subRegions : List (Nat × Nat)
  solved : List (Nat × RTy × RTy)
  regionsResolved : Bool
  info : CoerceUnsizedInfo
deriving DecidableEq

/-- Models the `check_mutbl` closure: report a mutability type mismatch
exactly for an immutable source with a mutable target, and hand back the
inner types with the `Unsize` trait and no custom kind. -/
def check_mutbl (span : Nat) (mtA mtB : RTy × Mutability) :
    List Diag × (RTy × RTy × Nat × Option Nat) :=
  ((if mtA.2 = Mutability.not ∧ mtB.2 = Mutability.mut
    then [.mismatchedTypesMutability span] else []),
   (mtA.1, mtB.1, unsizeTraitId, none))

/-- The common tail of `coerce_unsized_info` after the shape match:
register and fully solve the predicate `source: Trait<target>`,
report its fulfillment errors, then resolve all region obligations and
report their violations, and return the custom kind. -/
def coerceTail (o : Oracle) (subs : List (Nat × Nat)) (ds : List Diag)
    (source target : RTy) (traitDefId : Nat) (kind : Option Nat) : CoerceOut :=
  let errors := o.solve traitDefId source target
  let ds := ds ++ (if errors = [] then [] else [.fulfillmentErrors errors])
  let ds := ds ++ (if o.regionErrs = [] then [] else [.regionErrors o.regionErrs])
  ⟨ds, subs, [(traitDefId, source, target)], true, ⟨kind⟩⟩

/-- The diff-field scan of the ADT-to-ADT arm of `coerce_unsized_info`:
skip `PhantomData` fields (judged on the declared field type), skip
fields whose two instantiated types are proven equal with no residual
obligations, and keep everything else as `(index, type under A, type
under B)`. -/
def coerceDiffFields (tcx : Tcx) (o : Oracle) (sA sB : RTys) (fields : List FieldDef) :
    List (Nat × RTy × RTy) :=
  fields.enum.filterMap fun p =>
    let a := p.2.declaredTy.subst sA
    let b := p.2.declaredTy.subst sB
    if tcx.isPhantomData p.2.declaredTy then none
    else
      match o.tyEq a b with
      | some obls => if obls.isEmpty then none else some (p.1, a, b)
      | none => some (p.1, a, b)

/-- The display string of the too-many-coerced-fields rejection: each
diffing field name with both instantiated types, comma-joined. -/
def coerceDiffDisplay (fields : List FieldDef) (diffs : List (Nat × RTy × RTy)) : String :=
  String.intercalate ", " (diffs.map fun d =>
    "`" ++ (fields.getD d.1 ⟨"", .error⟩).name ++ "` (`" ++ d.2.1.toStr ++ "` -> `"
      ++ d.2.2.toStr ++ "`)")

/-- Models `coerce_unsized_info`.  Reference-to-reference first registers
`sub_regions(RelateObjectBound, r_b, r_a)`; the three pointer shapes run
`check_mutbl`; ADT-to-ADT (both structs) requires the same definition,
diffs the fields under both substitutions and accepts exactly one diff
field, whose types feed the final `CoerceUnsized` obligation; every
other shape pair is rejected as not-a-struct. -/
def coerce_unsized_info (tcx : Tcx) (o : Oracle) (rec : ImplRecord) : CoerceOut :=
  let errInfo : CoerceUnsizedInfo := ⟨none⟩
  match rec.source, rec.target with
  | .ref rA tyA mA, .ref rB tyB mB =>
      let c := check_mutbl rec.span (tyA, mA) (tyB, mB)
      coerceTail o [(rB, rA)] c.1 c.2.1 c.2.2.1 c.2.2.2.1 c.2.2.2.2
  | .ref _ tyA mA, .rawPtr tyB mB =>
      let c := check_mutbl rec.span (tyA, mA) (tyB, mB)
      coerceTail o [] c.1 c.2.1 c.2.2.1 c.2.2.2.1 c.2.2.2.2
  | .rawPtr tyA mA, .rawPtr tyB mB =>
      let c := check_mutbl rec.span (tyA, mA) (tyB, mB)
      coerceTail o [] c.1 c.2.1 c.2.2.1 c.2.2.2.1 c.2.2.2.2
  | .adt didA sA, .adt didB sB =>
      if (tcx.adt didA).isStruct && (tcx.adt didB).isStruct then
        if didA = didB then
          let fields := (tcx.adt didA).fields
          let diffs := coerceDiffFields tcx o sA sB fields
          if diffs.isEmpty then
            ⟨[.coerceUnsizedNoCoercedField rec.span], [], [], false, errInfo⟩
          else if diffs.length > 1 then
            ⟨[.coerceUnsizedTooManyCoercedFields rec.traitPathSpan diffs.length
                (coerceDiffDisplay fields diffs)], [], [], false, errInfo⟩
          else
            let d := diffs.getD 0 (0, .error, .error)
            coerceTail o [] [] d.2.1 d.2.2 coerceUnsizedTraitId (some d.1)
        else
          ⟨[.coerceUnsizedInvalidDefinition rec.span (tcx.defPath didA) (tcx.defPath didB)],
            [], [], false, errInfo⟩
      else ⟨[.coerceUnsizedNotAStruct rec.span], [], [], false, errInfo⟩
  | _, _ => ⟨[.coerceUnsizedNotAStruct rec.span], [], [], false, errInfo⟩

/-- The result of `visit_implementation_of_dispatch_from_dyn`: emitted
diagnostics, the fully solved recursive predicates, and whether region
obligations were resolved. -/
structure DispatchOut where
  diags : List Diag
  solved : List (Nat × RTy × RTy)
  regionsResolved : Bool
deriving DecidableEq

/-- The zero-size filter of the dispatch-from-dyn field scan: the layout
of the type computed successfully, is zero-sized and has an alignment of
one byte. -/
def zstAlign1 (o : Oracle) (ty : RTy) : Bool :=
  match o.layoutOf ty with
  | some l => l.isZst && l.alignBytes == 1
  | none => false

/-- One iteration of the field `filter` closure of
`visit_implementation_of_dispatch_from_dyn`: drop (silently) a field
whose type under A is a zero-sized type of alignment 1; then, when the
two instantiated types are proven equal with an empty obligation set,
emit the invalid-field diagnostic and drop the field; keep everything
else as a coerced field.  Returns (kept, emitted diagnostics). -/
def dispatchFieldKeep (o : Oracle) (span : Nat) (sA sB : RTys) (f : FieldDef) :
    Bool × List Diag :=
  let tyA := f.declaredTy.subst sA
  let tyB := f.declaredTy.subst sB
  if zstAlign1 o tyA then (false, [])
  else
    match o.tyEq tyA tyB with
    | some obls =>
        if obls.isEmpty then
          (false, [.invalidDispatchFromDynDeclaration span
            (.invalidFields f.name tyA.toStr)])
        else (true, [])
    | none => (true, [])

/-- The field scan of the ADT-to-ADT arm: the kept (coerced) fields in
order, paired with the diagnostics the `filter` closure emitted along
the way. -/
def dispatchCoercedFields (o : Oracle) (span : Nat) (sA sB : RTys)
    (fields : List FieldDef) : List FieldDef × List Diag :=
  fields.foldl (fun acc f =>
    let kd := dispatchFieldKeep o span sA sB f
    (acc.1 ++ (if kd.1 then [f] else []), acc.2 ++ kd.2)) ([], [])

/-- The display string of the dispatch-from-dyn too-many-coerced-fields
rejection. -/
def dispatchFieldsDisplay (sA sB : RTys) (coerced : List FieldDef) : String :=
  String.intercalate ", " (coerced.map fun f =>
    "`" ++ f.name ++ "` (`" ++ (f.declaredTy.subst sA).toStr ++ "` -> `"
      ++ (f.declaredTy.subst sB).toStr ++ "`)")

/-- Everything the ADT-to-ADT arm of
`visit_implementation_of_dispatch_from_dyn` does after the
representation check: scan the fields, then apply the 0/1/many
field-count logic; with exactly one coerced field, register and fully
solve the recursive `DispatchFromDyn` predicate on its two instantiated
types, report its fulfillment errors and resolve region obligations. -/
def dispatchAdtFields (o : Oracle) (span : Nat) (sA sB : RTys)
    (fields : List FieldDef) : DispatchOut :=
  let cd := dispatchCoercedFields o span sA sB fields
  if cd.1.isEmpty then
    ⟨cd.2 ++ [.invalidDispatchFromDynDeclaration span .noCoercedFields], [], false⟩
  else if cd.1.length > 1 then
    ⟨cd.2 ++ [.invalidDispatchFromDynDeclaration span
        (.tooManyCoercedFields cd.1.length (dispatchFieldsDisplay sA sB cd.1))],
      [], false⟩
  else
    let solved := cd.1.map fun f =>
      (dispatchFromDynTraitId, f.declaredTy.subst sA, f.declaredTy.subst sB)
    let errors := cd.1.foldl (fun acc f =>
      acc ++ o.solve dispatchFromDynTraitId (f.declaredTy.subst sA)
        (f.declaredTy.subst sB)) []
    let ds := cd.2 ++ (if errors = [] then [] else [.fulfillmentErrors errors])
    let ds := ds ++ (if o.regionErrs = [] then [] else [.regionErrors o.regionErrs])
    ⟨ds, solved, true⟩

/-- Models `visit_implementation_of_dispatch_from_dyn`.  References must
have provably equal regions and identical mutability, raw pointers
identical mutability (a failing guard falls through to the catch-all
not-a-struct arm); ADT-to-ADT (both structs) requires the same
definition, then non-fatally rejects a `repr(C)` or `repr(packed)`
layout before running the field scan and count logic. -/
def visit_implementation_of_dispatch_from_dyn (tcx : Tcx) (o : Oracle)
    (rec : ImplRecord) : DispatchOut :=
  let notStruct : DispatchOut :=
    ⟨[.invalidDispatchFromDynDeclaration rec.span .notAStruct], [], false⟩
  match rec.source, rec.target with
  | .ref rA _ mA, .ref rB _ mB =>
      if o.regionEqOk rA rB && (mA == mB) then ⟨[], [], false⟩ else notStruct
  | .rawPtr _ mA, .rawPtr _ mB =>
      if mA == mB then ⟨[], [], false⟩ else notStruct
  | .adt didA sA, .adt didB sB =>
      if (tcx.adt didA).isStruct && (tcx.adt didB).isStruct then
        if didA = didB then
          let da := tcx.adt didA
          let reprDs :=
            if da.reprC || da.reprPacked then
              [Diag.invalidDispatchFromDynDeclaration rec.span .invalidRepr]
            else []
          let rest := dispatchAdtFields o rec.span sA sB da.fields
          ⟨reprDs ++ rest.diags, rest.solved, rest.regionsResolved⟩
        else
          ⟨[.invalidDispatchFromDynDeclaration rec.span
              (.typesDifferTooMuch (tcx.defPath didA) (tcx.defPath didB))], [], false⟩
      else notStruct
  | _, _ => notStruct

/-- The outlives reading of a recorded `sub_regions` call: a pair
`(sub, sup)` in `subRegions` is the constraint that `sub` is a subregion
of `sup`, i.e. that `sup` outlives `sub`. -/
def CoerceOut.registersOutlives (out : CoerceOut) (sup sub : Nat) : Prop :=
  (sub, sup) ∈ out.subRegions

/-- Spec-side reading of the note-recording condition of the copy
validator: an unmet obligation is recorded exactly when its predicate
differs from the root obligation's predicate, keyed by (field type text,
unmet predicate text) with the obligation cause span as value. -/
def recordOf (tyText : String) (e : FulfillmentError) :
    Option ((String × String) × Nat) :=
  if e.predicate = e.rootPredicate then none
  else some ((tyText, e.predicate.toStr), e.span)

/-- Spec-side reading of the bound-suggestion condition of the copy
validator: a suggestion is collected exactly for a positive trait
predicate whose self type is a bare generic parameter (whether or not it
is the root obligation). -/
def boundOf (e : FulfillmentError) : Option Bound :=
  match e.predicate with
  | .traitPred true selfTy path did =>
      (match selfTy with
       | .param _ => some (selfTy.toStr, path, some did)
       | _ => none)
  | _ => none

/-- All recorded (key, span) pairs of one record, in encounter order:
per infringing field, the recordable errors of its fully solved copy
bound. -/
def copyRecordedSpec (o : Oracle) (fields : List CopyField) :
    List ((String × String) × Nat) :=
  fields.flatMap fun f => (o.solveCopyBound f.fieldTySpan f.ty).filterMap (recordOf f.ty.toStr)

/-- All collected bound suggestions of one record, in encounter order. -/
def copyBoundsSpec (o : Oracle) (fields : List CopyField) : List Bound :=
  fields.flatMap fun f => (o.solveCopyBound f.fieldTySpan f.ty).filterMap boundOf

/-- Insertion of a list of (key, span) pairs into a `BTreeMap` model. -/
def btreeOfList (l : List ((String × String) × Nat)) (m : BTree) : BTree :=
  l.foldl (fun acc p => btreeInsert p.1 p.2 acc) m

/-- Membership of a span under a key somewhere in the map. -/
def btreeMem (k : String × String) (s : Nat) (m : BTree) : Prop :=
  ∃ vs, (k, vs) ∈ m ∧ s ∈ vs

/-- The keys of the map are strictly increasing (so they are pairwise
distinct and the map iterates in deterministic sorted order). -/
def btreeSortedKeys (m : BTree) : Prop :=
  List.Pairwise (fun a b => keyLt a.1 b.1) m

/-- A concrete oracle with syntactic type equality (equal types are
proven equal with no residual obligations, different types fail), equal
regions proven equal, no layout information, a solver that discharges
everything, and a copy judgment that always succeeds. -/
def oracleSyn : Oracle where
  tyEq a b := if a = b then some [] else none
  regionEqOk r1 r2 := r1 == r2
  layoutOf _ := none
  solve _ _ _ := []
  regionErrs := []
  canCopy _ := none
  solveCopyBound _ _ := []

/-- Oracle whose copy judgment answers "not an ADT". -/
def oracleNotAdt : Oracle where
  tyEq a b := if a = b then some [] else none
  regionEqOk r1 r2 := r1 == r2
  layoutOf _ := none
  solve _ _ _ := []
  regionErrs := []
  canCopy _ := some .notAnAdt
  solveCopyBound _ _ := []

/-- Oracle whose copy judgment answers "has a custom destructor". -/
def oracleDtor : Oracle where
  tyEq a b := if a = b then some [] else none
  regionEqOk r1 r2 := r1 == r2
  layoutOf _ := none
  solve _ _ _ := []
  regionErrs := []
  canCopy _ := some .hasDestructor
  solveCopyBound _ _ := []

/-- One infringing field (spans 11 and 12) of a concrete copy impl. -/
def fieldsC : List CopyField := [⟨11, 12, .prim 5⟩]

/-- Oracle whose copy judgment reports `fieldsC` as infringing, and whose
solver reports one unmet obligation whose predicate (a positive trait
predicate on the bare parameter `T0`) differs from the root obligation. -/
def oracleCopy : Oracle where
  tyEq a b := if a = b then some [] else none
  regionEqOk r1 r2 := r1 == r2
  layoutOf _ := none
  solve _ _ _ := []
  regionErrs := []
  canCopy _ := some (.infringingFields fieldsC)
  solveCopyBound _ _ := [⟨.traitPred true (.param 0) "Copy" 10, .otherPred "root", 3⟩]

/-- A context with one local struct `adt0` with a single field `f : T0`
(plus the `PhantomData` id 99). -/
def tcxC : Tcx :=
  ⟨[⟨0, true, true, false, false, [⟨"f", .param 0⟩]⟩], 99, fun _ => "adt0"⟩

/-- A dispatch-from-dyn impl between two identical instantiations
`adt0<prim1> -> adt0<prim1>`. -/
def recC : ImplRecord :=
  ⟨7, 8, 9, .adt 0 (.cons (.prim 1) .nil), .adt 0 (.cons (.prim 1) .nil)⟩

/-- A context with one local struct `adt1` (a `Wrapper<T0>` with a
single field `ptr : *mut T0`). -/
def tcxW : Tcx :=
  ⟨[⟨1, true, true, false, false, [⟨"ptr", .rawPtr (.param 0) .mut⟩]⟩], 99, fun _ => "adt1"⟩

/-- The widening impl `Wrapper<[prim0; 3]> -> Wrapper<[prim0]>`. -/
def recW : ImplRecord :=
  ⟨7, 8, 9, .adt 1 (.cons (.array (.prim 0) 3) .nil), .adt 1 (.cons (.slice (.prim 0)) .nil)⟩

/-- A reference-to-reference impl `&r0 prim0 -> &r1 mut prim0`
(immutable source region 0, mutable target region 1). -/
def recR : ImplRecord := ⟨7, 8, 9, .ref 0 (.prim 0) .not, .ref 1 (.prim 0) .mut⟩

/-- A reference-to-reference impl with equal regions and differing
mutability (mutable source, immutable target). -/
def recG : ImplRecord := ⟨7, 8, 9, .ref 0 (.prim 0) .mut, .ref 0 (.prim 0) .not⟩

/-- An impl whose source type is a primitive. -/
def recPrim : ImplRecord := ⟨7, 8, 9, .prim 3, .prim 3⟩

/-- A copy impl on a primitive source type. -/
def recCopy : ImplRecord := ⟨7, 8, 9, .prim 5, .prim 5⟩

/-- A context with one local struct `adt2` declared with a
foreign-call-compatible (`repr(C)`) representation. -/
def tcxR : Tcx :=
  ⟨[⟨2, true, true, true, false, [⟨"f", .param 0⟩]⟩], 99, fun _ => "adt2"⟩

/-- A dispatch-from-dyn impl between two identical instantiations of the
`repr(C)` struct `adt2`. -/
def recP2 : ImplRecord :=
  ⟨7, 8, 9, .adt 2 (.cons (.prim 1) .nil), .adt 2 (.cons (.prim 1) .nil)⟩

theorem keyLt_trans {a b c : String × String} (h1 : keyLt a b) (h2 : keyLt b c) :
    keyLt a c := by
  unfold keyLt at *
  rcases h1 with h1 | ⟨e1, l1⟩ <;> rcases h2 with h2 | ⟨e2, l2⟩
  · exact Or.inl (lt_trans h1 h2)
  · exact Or.inl (e2 ▸ h1)
  · exact Or.inl (e1 ▸ h2)
  · exact Or.inr ⟨e1.trans e2, lt_trans l1 l2⟩

theorem keyLt_of_not_of_ne {a b : String × String} (hne : a ≠ b) (h : ¬ keyLt a b) :
    keyLt b a := by
  unfold keyLt at *
  push_neg at h
  rcases lt_trichotomy a.1 b.1 with h1 | h1 | h1
  · exact absurd h1 h.1
  · rcases lt_trichotomy a.2 b.2 with h2 | h2 | h2
    · exact absurd h2 (h.2 h1)
    · exact absurd (Prod.ext_iff.mpr ⟨h1, h2⟩) hne
    · exact Or.inr ⟨h1.symm, h2⟩
  · exact Or.inl h1

theorem btreeInsert_keys (k : String × String) (v : Nat) (m : BTree) :
    ∀ p ∈ btreeInsert k v m, p.1 = k ∨ p.1 ∈ m.map Prod.fst := by
  induction m with
  | nil => simp [btreeInsert]
  | cons kv rest ih =>
      intro p hp
      simp only [btreeInsert] at hp
      split at hp
      · rw [List.mem_cons, List.mem_cons] at hp
        rcases hp with h | h | h
        · exact Or.inl (by rw [h])
        · exact Or.inr (by rw [h]; simp)
        · exact Or.inr (by
            simp only [List.map_cons, List.mem_cons]
            exact Or.inr (List.mem_map_of_mem Prod.fst h))
      · split at hp
        · rw [List.mem_cons] at hp
          rcases hp with h | h
          · exact Or.inr (by rw [h]; simp)
          · exact Or.inr (by
              simp only [List.map_cons, List.mem_cons]
              exact Or.inr (List.mem_map_of_mem Prod.fst h))
        · rw [List.mem_cons] at hp
          rcases hp with h | h
          · exact Or.inr (by rw [h]; simp)
          · rcases ih p h with h' | h'
            · exact Or.inl h'
            · exact Or.inr (by simp only [List.map_cons, List.mem_cons]; exact Or.inr h')

theorem btreeSortedKeys_insert (k : String × String) (v : Nat) (m : BTree)
    (h : btreeSortedKeys m) : btreeSortedKeys (btreeInsert k v m) := by
  induction m with
  | nil => simp [btreeInsert, btreeSortedKeys]
  | cons kv rest ih =>
      rw [btreeSortedKeys, List.pairwise_cons] at h
      obtain ⟨h1, h2⟩ := h
      unfold btreeSortedKeys
      simp only [btreeInsert]
      split
      · rename_i hlt
        rw [List.pairwise_cons]
        refine ⟨?_, ?_⟩
        · intro p hp
          rw [List.mem_cons] at hp
          rcases hp with h | h
          · rw [h]; exact hlt
          · exact keyLt_trans hlt (h1 p h)
        · rw [List.pairwise_cons]
          exact ⟨h1, h2⟩
      · split
        · rename_i heq
          rw [List.pairwise_cons]
          exact ⟨fun p hp => h1 p hp, h2⟩
        · rename_i hnlt hne
          rw [List.pairwise_cons]
          refine ⟨?_, ih h2⟩
          intro p hp
          rcases btreeInsert_keys k v rest p hp with h' | h'
          · rw [h']
            exact keyLt_of_not_of_ne hne hnlt
          · rcases List.mem_map.mp h' with ⟨q, hq, hq'⟩
            exact hq' ▸ h1 q hq

theorem btreeMem_nil (k : String × String) (s : Nat) : ¬ btreeMem k s [] := by
  rintro ⟨vs, h, _⟩
  exact absurd h (List.not_mem_nil _)

theorem btreeMem_cons (k k1 : String × String) (s : Nat) (v1 : List Nat) (m : BTree) :
    btreeMem k s ((k1, v1) :: m) ↔ (k = k1 ∧ s ∈ v1) ∨ btreeMem k s m := by
  unfold btreeMem
  constructor
  · rintro ⟨vs, h, hs⟩
    rw [List.mem_cons] at h
    rcases h with h | h
    · injection h with h1 h2
      exact Or.inl ⟨h1, h2 ▸ hs⟩
    · exact Or.inr ⟨vs, h, hs⟩
  · rintro (⟨hk, hs⟩ | ⟨vs, h, hs⟩)
    · exact ⟨v1, by rw [List.mem_cons]; exact Or.inl (by rw [hk]), hs⟩
    · exact ⟨vs, by rw [List.mem_cons]; exact Or.inr h, hs⟩

theorem btreeMem_insert (k kk : String × String) (s v : Nat) (m : BTree) :
    btreeMem k s (btreeInsert kk v m) ↔ (k = kk ∧ s = v) ∨ btreeMem k s m := by
  induction m with
  | nil =>
      simp only [btreeInsert]
      rw [btreeMem_cons]
      simp
  | cons kv rest ih =>
      obtain ⟨k1, v1⟩ := kv
      simp only [btreeInsert]
      split
      · rw [btreeMem_cons, btreeMem_cons]
        simp only [List.mem_singleton]
      · split
        · rename_i heq
          subst heq
          rw [btreeMem_cons, btreeMem_cons]
          simp only [List.mem_append, List.mem_singleton]
          tauto
        · rw [btreeMem_cons, btreeMem_cons, ih]
          tauto

theorem btreeOfList_cons (p : (String × String) × Nat) (l : List ((String × String) × Nat))
    (m : BTree) : btreeOfList (p :: l) m = btreeOfList l (btreeInsert p.1 p.2 m) := rfl

theorem btreeOfList_append (l1 l2 : List ((String × String) × Nat)) (m : BTree) :
    btreeOfList (l1 ++ l2) m = btreeOfList l2 (btreeOfList l1 m) := by
  unfold btreeOfList
  rw [List.foldl_append]

theorem btreeSortedKeys_ofList (l : List ((String × String) × Nat)) (m : BTree)
    (h : btreeSortedKeys m) : btreeSortedKeys (btreeOfList l m) := by
  induction l generalizing m with
  | nil => exact h
  | cons p rest ih => exact ih _ (btreeSortedKeys_insert p.1 p.2 m h)

theorem btreeMem_ofList (k : String × String) (s : Nat)
    (l : List ((String × String) × Nat)) (m : BTree) :
    btreeMem k s (btreeOfList l m) ↔ (k, s) ∈ l ∨ btreeMem k s m := by
  induction l generalizing m with
  | nil => simp [btreeOfList]
  | cons p rest ih =>
      obtain ⟨pk, pv⟩ := p
      rw [btreeOfList_cons, ih, btreeMem_insert, List.mem_cons]
      simp only [Prod.mk.injEq]
      tauto

theorem copyErrStep_fst (t : String) (acc : BTree × List Bound) (e : FulfillmentError) :
    (copyErrStep t acc e).1 =
      match recordOf t e with
      | some p => btreeInsert p.1 p.2 acc.1
      | none => acc.1 := by
  unfold copyErrStep recordOf
  by_cases hc : e.predicate = e.rootPredicate <;> simp [hc]

theorem copyErrStep_snd (t : String) (acc : BTree × List Bound) (e : FulfillmentError) :
    (copyErrStep t acc e).2 = acc.2 ++ (boundOf e).toList := by
  unfold copyErrStep boundOf
  rcases e with ⟨p, r, sp⟩
  dsimp only
  cases p with
  | traitPred pos selfTy path did => cases pos <;> cases selfTy <;> simp
  | otherPred s => simp

theorem foldl_copyErrStep_fst (t : String) (errs : List FulfillmentError)
    (acc : BTree × List Bound) :
    (errs.foldl (copyErrStep t) acc).1 = btreeOfList (errs.filterMap (recordOf t)) acc.1 := by
  induction errs generalizing acc with
  | nil => rfl
  | cons e es ih =>
      rw [List.foldl_cons, ih, List.filterMap_cons]
      cases h : recordOf t e
      · rw [copyErrStep_fst, h]
      · rw [btreeOfList_cons, copyErrStep_fst, h]

theorem foldl_copyErrStep_snd (t : String) (errs : List FulfillmentError)
    (acc : BTree × List Bound) :
    (errs.foldl (copyErrStep t) acc).2 = acc.2 ++ errs.filterMap boundOf := by
  induction errs generalizing acc with
  | nil => simp
  | cons e es ih =>
      rw [List.foldl_cons, ih, copyErrStep_snd, List.filterMap_cons]
      cases h : boundOf e <;> simp [h]

theorem copyErrorsAndBounds_foldl (o : Oracle) (fields : List CopyField)
    (acc : BTree × List Bound) :
    fields.foldl (copyFieldStep o) acc =
      (btreeOfList (copyRecordedSpec o fields) acc.1, acc.2 ++ copyBoundsSpec o fields) := by
  induction fields generalizing acc with
  | nil => simp [copyRecordedSpec, copyBoundsSpec, btreeOfList]
  | cons f fs ih =>
      rw [List.foldl_cons, ih]
      unfold copyFieldStep
      rw [foldl_copyErrStep_fst, foldl_copyErrStep_snd]
      unfold copyRecordedSpec copyBoundsSpec
      rw [List.flatMap_cons, btreeOfList_append]
      simp [List.append_assoc]

theorem copyErrorsAndBounds_eq (o : Oracle) (fields : List CopyField) :
    copyErrorsAndBounds o fields =
      (btreeOfList (copyRecordedSpec o fields) [], copyBoundsSpec o fields) := by
  unfold copyErrorsAndBounds
  rw [copyErrorsAndBounds_foldl]
  simp

theorem boundOf_eq_some (e : FulfillmentError) (b : Bound) :
    boundOf e = some b ↔
      ∃ idx path did, e.predicate = .traitPred true (.param idx) path did ∧
        b = ((RTy.param idx).toStr, path, some did) := by
  unfold boundOf
  rcases e with ⟨p, r, sp⟩
  dsimp only
  cases p with
  | traitPred pos selfTy path did =>
      cases pos
      · simp
      · cases selfTy <;> simp
        aesop
  | otherPred s => simp

theorem coerceTail_mutbl (o : Oracle) (span : Nat) (subs : List (Nat × Nat))
    (tyA tyB : RTy) (mA mB : Mutability) :
    coerceTail o subs (check_mutbl span (tyA, mA) (tyB, mB)).1 tyA tyB unsizeTraitId none =
      ⟨(if mA = .not ∧ mB = .mut then [.mismatchedTypesMutability span] else [])
        ++ ((if o.solve unsizeTraitId tyA tyB = [] then []
              else [.fulfillmentErrors (o.solve unsizeTraitId tyA tyB)])
          ++ (if o.regionErrs = [] then [] else [.regionErrors o.regionErrs])),
        subs, [(unsizeTraitId, tyA, tyB)], true, ⟨none⟩⟩ := by
  unfold coerceTail check_mutbl
  dsimp only
  rw [List.append_assoc]

theorem coerce_mutbl_out_props (o : Oracle) (span : Nat) (subs : List (Nat × Nat))
    (tyA tyB : RTy) (mA mB : Mutability) :
    (Diag.mismatchedTypesMutability span ∈
        (coerceTail o subs (check_mutbl span (tyA, mA) (tyB, mB)).1 tyA tyB
          unsizeTraitId none).diags
      ↔ mA = .not ∧ mB = .mut)
    ∧ (coerceTail o subs (check_mutbl span (tyA, mA) (tyB, mB)).1 tyA tyB
        unsizeTraitId none).info = ⟨none⟩
    ∧ (¬(mA = .not ∧ mB = .mut) → o.solve unsizeTraitId tyA tyB = [] →
        o.regionErrs = [] →
        (coerceTail o subs (check_mutbl span (tyA, mA) (tyB, mB)).1 tyA tyB
          unsizeTraitId none).diags = []) := by
  simp only [coerceTail_mutbl]
  refine ⟨?_, by trivial, ?_⟩
  · by_cases h1 : mA = .not ∧ mB = .mut <;>
      by_cases h2 : o.solve unsizeTraitId tyA tyB = [] <;>
      by_cases h3 : o.regionErrs = [] <;> simp [h1, h2, h3]
  · intro h1 h2 h3
    simp [h1, h2, h3]


/-- C1 counterexample.  The dyn-dispatch field scan emits the
invalid-field diagnostic precisely when the two instantiated field types
are proven EQUAL with zero residual obligations (the field is then also
excluded), not when equality fails: here the single field `f` has the
same type `prim1` under both substitutions, `tyEq` succeeds with an
empty obligation set, and the validator nevertheless emits the
invalid-field diagnostic (followed by the no-coerced-fields rejection),
contradicting the claim that such a field produces no diagnostic and
that the diagnostic fires on equality failure. -/
theorem dispatch_invalid_field_fires_on_equal_types_cex :
    oracleSyn.tyEq (.prim 1) (.prim 1) = some []
    ∧ visit_implementation_of_dispatch_from_dyn tcxC oracleSyn recC =
      ⟨[.invalidDispatchFromDynDeclaration 7 (.invalidFields "f" "prim1"),
        .invalidDispatchFromDynDeclaration 7 .noCoercedFields], [], false⟩ := by
  constructor
  · rfl
  · decide

/-- C1 (amended): for every field surviving the zero-size-align-1
filter, the field is excluded from the diff set if and only if the two
instantiated types are proven equal with zero residual obligations, and
in exactly that case the invalid-field diagnostic naming the field and
its instantiated type is emitted immediately during the scan; in every
other case (equality failure, or equality with residual obligations) the
field is a diff field and the scan emits nothing for it.  The per-field
scan diagnostics precede the 0/1/many field-count diagnostics in the
validator's output. -/
theorem dispatch_invalid_field_diag_characterization :
    (∀ (o : Oracle) (span : Nat) (sA sB : RTys) (f : FieldDef),
      zstAlign1 o (f.declaredTy.subst sA) = false →
        ((dispatchFieldKeep o span sA sB f).1 = false ↔
            o.tyEq (f.declaredTy.subst sA) (f.declaredTy.subst sB) = some [])
        ∧ ((dispatchFieldKeep o span sA sB f).2 =
              [.invalidDispatchFromDynDeclaration span
                (.invalidFields f.name (f.declaredTy.subst sA).toStr)]
            ↔ o.tyEq (f.declaredTy.subst sA) (f.declaredTy.subst sB) = some [])
        ∧ ((dispatchFieldKeep o span sA sB f).2 = [] ↔
            ¬ o.tyEq (f.declaredTy.subst sA) (f.declaredTy.subst sB) = some []))
    ∧ (∀ (o : Oracle) (span : Nat) (sA sB : RTys) (fields : List FieldDef),
        ∃ tail, (dispatchAdtFields o span sA sB fields).diags =
          (dispatchCoercedFields o span sA sB fields).2 ++ tail) := by
  constructor
  · intro o span sA sB f hz
    unfold dispatchFieldKeep
    simp only [hz, if_false, Bool.false_eq_true]
    cases he : o.tyEq (f.declaredTy.subst sA) (f.declaredTy.subst sB) with
    | none => simp
    | some obls => cases obls <;> simp
  · intro o span sA sB fields
    unfold dispatchAdtFields
    dsimp only
    by_cases h1 : (dispatchCoercedFields o span sA sB fields).1.isEmpty = true
    · rw [if_pos h1]
      exact ⟨_, rfl⟩
    · rw [if_neg h1]
      by_cases h2 : (dispatchCoercedFields o span sA sB fields).1.length > 1
      · rw [if_pos h2]
        exact ⟨_, rfl⟩
      · rw [if_neg h2]
        exact ⟨_, (List.append_assoc _ _ _)⟩

/-- C1 witness: the amended characterization applied to the concrete
field `f : T0` under the substitutions `prim1`/`prim1`, whose
zero-size filter hypothesis holds by computation. -/
theorem dispatch_invalid_field_diag_characterization_witness :
    (dispatchFieldKeep oracleSyn 7 (.cons (.prim 1) .nil) (.cons (.prim 1) .nil)
        ⟨"f", RTy.param 0⟩).1 = false ↔
      oracleSyn.tyEq ((FieldDef.mk "f" (RTy.param 0)).declaredTy.subst (.cons (.prim 1) .nil))
        ((FieldDef.mk "f" (RTy.param 0)).declaredTy.subst (.cons (.prim 1) .nil)) = some [] :=
  (dispatch_invalid_field_diag_characterization.1 oracleSyn 7 (.cons (.prim 1) .nil)
    (.cons (.prim 1) .nil) ⟨"f", RTy.param 0⟩ rfl).1

/-- C2 counterexample.  For the reference-to-reference impl
`&r0 prim0 -> &r1 mut prim0` the validator records the single
`sub_regions` call `(1, 0)`, i.e. the constraint that target region 1 is
a subregion of source region 0 (source outlives target); it does NOT
register "target region outlives source region" as the claim states. -/
theorem coerce_ref_region_direction_cex :
    (coerce_unsized_info tcxW oracleSyn recR).subRegions = [(1, 0)]
    ∧ ¬ (coerce_unsized_info tcxW oracleSyn recR).registersOutlives 1 0 := by
  constructor
  · decide
  · unfold CoerceOut.registersOutlives
    decide

/-- C2 (amended): for every pointer-widening impl whose source and
target are both references, the validator registers exactly one region
constraint with the inference context, `sub_regions(RelateObjectBound,
r_target, r_source)`, i.e. the SOURCE region outlives (or equals) the
target region; the reverse outlives-constraint is not registered when
the regions differ. -/
theorem coerce_ref_region_source_outlives_target (tcx : Tcx) (o : Oracle)
    (rec : ImplRecord) (rA rB : Nat) (tyA tyB : RTy) (mA mB : Mutability)
    (h1 : rec.source = .ref rA tyA mA) (h2 : rec.target = .ref rB tyB mB) :
    (coerce_unsized_info tcx o rec).subRegions = [(rB, rA)]
    ∧ (coerce_unsized_info tcx o rec).registersOutlives rA rB
    ∧ (rA ≠ rB → ¬ (coerce_unsized_info tcx o rec).registersOutlives rB rA) := by
  have he : (coerce_unsized_info tcx o rec).subRegions = [(rB, rA)] := by
    unfold coerce_unsized_info
    rw [h1, h2]
    simp [coerceTail]
  refine ⟨he, ?_, ?_⟩
  · unfold CoerceOut.registersOutlives
    rw [he]
    simp
  · intro hne
    unfold CoerceOut.registersOutlives
    rw [he]
    simp only [List.mem_singleton, Prod.mk.injEq]
    rintro ⟨h, -⟩
    exact hne h

/-- C2 witness: the amended theorem applied to the concrete impl
`&r0 prim0 -> &r1 mut prim0`. -/
theorem coerce_ref_region_source_outlives_target_witness :
    (coerce_unsized_info tcxW oracleSyn recR).subRegions = [(1, 0)] :=
  (coerce_ref_region_source_outlives_target tcxW oracleSyn recR 0 1 (.prim 0) (.prim 0)
    .not .mut rfl rfl).1

/-- C3 counterexample.  The copy validator's only unmet obligation here
is NOT a root obligation (its predicate differs from the root
predicate), yet because its subject is the bare parameter `T0` a
(parameter, capability) suggestion pair is still collected — the
suggestion scan is not restricted to root obligations as the claim
states. -/
theorem copy_bound_suggestion_nonroot_cex :
    oracleCopy.solveCopyBound 12 (.prim 5) =
      [⟨.traitPred true (.param 0) "Copy" 10, .otherPred "root", 3⟩]
    ∧ (RPred.traitPred true (.param 0) "Copy" 10 ≠ RPred.otherPred "root")
    ∧ visit_implementation_of_copy oracleCopy recCopy =
      [.copyCannotBeImplemented 9 [11] [(("prim5", "T0: Copy"), [3])]
        [("T0", "Copy", some 10)]] := by
  refine ⟨rfl, by decide, by decide⟩

/-- C3 (amended): in the infringing-fields path, a (parameter,
capability-name) suggestion pair is collected for an unmet predicate if
and only if it is a positive trait predicate whose subject type is a
bare generic parameter — whether or not it is the root obligation; the
pairs are handed to the suggestion machinery in encounter order. -/
theorem copy_bound_suggestions_characterization (o : Oracle) (fields : List CopyField)
    (rec : ImplRecord)
    (h : o.canCopy rec.source = some (.infringingFields fields)) :
    visit_implementation_of_copy o rec =
      [.copyCannotBeImplemented rec.traitPathSpan (fields.map (·.fieldSpan))
        (copyErrorsAndBounds o fields).1 (copyErrorsAndBounds o fields).2]
    ∧ (copyErrorsAndBounds o fields).2 = copyBoundsSpec o fields
    ∧ (∀ b : Bound, b ∈ copyBoundsSpec o fields ↔
        ∃ f ∈ fields, ∃ e ∈ o.solveCopyBound f.fieldTySpan f.ty,
          ∃ idx path did, e.predicate = .traitPred true (.param idx) path did ∧
            b = ((RTy.param idx).toStr, path, some did)) := by
  refine ⟨?_, ?_, ?_⟩
  · unfold visit_implementation_of_copy
    rw [h]
  · rw [copyErrorsAndBounds_eq]
  · intro b
    unfold copyBoundsSpec
    rw [List.mem_flatMap]
    constructor
    · rintro ⟨f, hf, hb⟩
      rw [List.mem_filterMap] at hb
      obtain ⟨e, he, hbe⟩ := hb
      obtain ⟨idx, path, did, hp, hbb⟩ := (boundOf_eq_some e b).mp hbe
      exact ⟨f, hf, e, he, idx, path, did, hp, hbb⟩
    · rintro ⟨f, hf, e, he, idx, path, did, hp, hbb⟩
      refine ⟨f, hf, ?_⟩
      rw [List.mem_filterMap]
      exact ⟨e, he, (boundOf_eq_some e b).mpr ⟨idx, path, did, hp, hbb⟩⟩

/-- C3 witness: the amended characterization applied to the concrete
infringing-fields record. -/
theorem copy_bound_suggestions_characterization_witness :
    visit_implementation_of_copy oracleCopy recCopy =
      [.copyCannotBeImplemented recCopy.traitPathSpan (fieldsC.map (·.fieldSpan))
        (copyErrorsAndBounds oracleCopy fieldsC).1 (copyErrorsAndBounds oracleCopy fieldsC).2] :=
  (copy_bound_suggestions_characterization oracleCopy fieldsC recCopy rfl).1

/-- C4: for the three pointer shape pairs of the pointer-widening
validator (ref/ref, ref/raw, raw/raw), the mutability type-mismatch
diagnostic is emitted if and only if the source is immutable and the
target mutable; in every other mutability combination, when the
registered `Unsize` obligation and the region obligations are satisfied,
no diagnostic at all is emitted, and no field analysis is performed
(the custom widening kind is `none` for these shapes). -/
theorem coerce_pointer_mutability_check (tcx : Tcx) (o : Oracle) (rec : ImplRecord) :
    (∀ rA tyA mA rB tyB mB, rec.source = .ref rA tyA mA → rec.target = .ref rB tyB mB →
      ((Diag.mismatchedTypesMutability rec.span ∈ (coerce_unsized_info tcx o rec).diags
          ↔ mA = .not ∧ mB = .mut)
        ∧ (coerce_unsized_info tcx o rec).info = ⟨none⟩
        ∧ (¬(mA = .not ∧ mB = .mut) → o.solve unsizeTraitId tyA tyB = [] →
            o.regionErrs = [] → (coerce_unsized_info tcx o rec).diags = [])))
    ∧ (∀ rA tyA mA tyB mB, rec.source = .ref rA tyA mA → rec.target = .rawPtr tyB mB →
      ((Diag.mismatchedTypesMutability rec.span ∈ (coerce_unsized_info tcx o rec).diags
          ↔ mA = .not ∧ mB = .mut)
        ∧ (coerce_unsized_info tcx o rec).info = ⟨none⟩
        ∧ (¬(mA = .not ∧ mB = .mut) → o.solve unsizeTraitId tyA tyB = [] →
            o.regionErrs = [] → (coerce_unsized_info tcx o rec).diags = [])))
    ∧ (∀ tyA mA tyB mB, rec.source = .rawPtr tyA mA → rec.target = .rawPtr tyB mB →
      ((Diag.mismatchedTypesMutability rec.span ∈ (coerce_unsized_info tcx o rec).diags
          ↔ mA = .not ∧ mB = .mut)
        ∧ (coerce_unsized_info tcx o rec).info = ⟨none⟩
        ∧ (¬(mA = .not ∧ mB = .mut) → o.solve unsizeTraitId tyA tyB = [] →
            o.regionErrs = [] → (coerce_unsized_info tcx o rec).diags = []))) := by
  refine ⟨?_, ?_, ?_⟩
  · intro rA tyA mA rB tyB mB h1 h2
    have harm : coerce_unsized_info tcx o rec =
        coerceTail o [(rB, rA)] (check_mutbl rec.span (tyA, mA) (tyB, mB)).1 tyA tyB
          unsizeTraitId none := by
      unfold coerce_unsized_info
      rw [h1, h2]
      rfl
    rw [harm]
    exact coerce_mutbl_out_props o rec.span [(rB, rA)] tyA tyB mA mB
  · intro rA tyA mA tyB mB h1 h2
    have harm : coerce_unsized_info tcx o rec =
        coerceTail o [] (check_mutbl rec.span (tyA, mA) (tyB, mB)).1 tyA tyB
          unsizeTraitId none := by
      unfold coerce_unsized_info
      rw [h1, h2]
      rfl
    rw [harm]
    exact coerce_mutbl_out_props o rec.span [] tyA tyB mA mB
  · intro tyA mA tyB mB h1 h2
    have harm : coerce_unsized_info tcx o rec =
        coerceTail o [] (check_mutbl rec.span (tyA, mA) (tyB, mB)).1 tyA tyB
          unsizeTraitId none := by
      unfold coerce_unsized_info
      rw [h1, h2]
      rfl
    rw [harm]
    exact coerce_mutbl_out_props o rec.span [] tyA tyB mA mB

/-- C4 witness: the immutable-to-mutable reference pair is reported as a
mutability mismatch. -/
theorem coerce_pointer_mutability_check_witness :
    Diag.mismatchedTypesMutability recR.span ∈ (coerce_unsized_info tcxW oracleSyn recR).diags
      ↔ (Mutability.not = Mutability.not ∧ Mutability.mut = Mutability.mut) :=
  ((coerce_pointer_mutability_check tcxW oracleSyn recR).1 0 (.prim 0) .not 1 (.prim 0)
    .mut rfl rfl).1

/-- C5: for a pointer-widening impl between two struct instantiations of
the same definition, after the phantom and equal-type filters: zero diff
fields yields the no-coerced-field rejection; two or more yields the
too-many-coerced-fields rejection listing every diffing field's name
with both instantiated types; exactly one diff field (i, tyA, tyB)
registers and fully solves the recursive widening obligation
`tyA: CoerceUnsized<tyB>`, reports its unmet sub-obligations, resolves
the region obligations, and returns the custom widening kind
"field index i". -/
theorem coerce_adt_field_count_logic (tcx : Tcx) (o : Oracle) (rec : ImplRecord)
    (didA didB : Nat) (sA sB : RTys)
    (h1 : rec.source = .adt didA sA) (h2 : rec.target = .adt didB sB)
    (hsA : (tcx.adt didA).isStruct = true) (hsB : (tcx.adt didB).isStruct = true)
    (hd : didA = didB) :
    (coerceDiffFields tcx o sA sB (tcx.adt didA).fields = [] →
        coerce_unsized_info tcx o rec =
          ⟨[.coerceUnsizedNoCoercedField rec.span], [], [], false, ⟨none⟩⟩)
    ∧ ((coerceDiffFields tcx o sA sB (tcx.adt didA).fields).length > 1 →
        coerce_unsized_info tcx o rec =
          ⟨[.coerceUnsizedTooManyCoercedFields rec.traitPathSpan
              (coerceDiffFields tcx o sA sB (tcx.adt didA).fields).length
              (coerceDiffDisplay (tcx.adt didA).fields
                (coerceDiffFields tcx o sA sB (tcx.adt didA).fields))],
            [], [], false, ⟨none⟩⟩)
    ∧ (∀ i a b, coerceDiffFields tcx o sA sB (tcx.adt didA).fields = [(i, a, b)] →
        coerce_unsized_info tcx o rec =
          ⟨(if o.solve coerceUnsizedTraitId a b = [] then []
              else [.fulfillmentErrors (o.solve coerceUnsizedTraitId a b)])
            ++ (if o.regionErrs = [] then [] else [.regionErrors o.regionErrs]),
            [], [(coerceUnsizedTraitId, a, b)], true, ⟨some i⟩⟩) := by
  subst hd
  refine ⟨?_, ?_, ?_⟩
  · intro hdiff
    unfold coerce_unsized_info
    rw [h1, h2]
    simp [hsA, hdiff]
  · intro hlen
    unfold coerce_unsized_info
    rw [h1, h2]
    have hne : ¬ (coerceDiffFields tcx o sA sB (tcx.adt didA).fields).isEmpty = true := by
      rw [List.isEmpty_iff]
      intro hnil
      rw [hnil] at hlen
      simp at hlen
    simp [hsA, hne, hlen]
  · intro i a b hdiff
    unfold coerce_unsized_info
    rw [h1, h2]
    simp [hsA, hdiff, coerceTail]

/-- C5 witness: `Wrapper<[prim0; 3]> -> Wrapper<[prim0]>` has exactly
one diff field (`ptr`, index 0); the recursive obligation
`*mut [prim0; 3]: CoerceUnsized<*mut [prim0]>` is registered and solved,
the regions are resolved, and the returned kind is field index 0. -/
theorem coerce_adt_field_count_logic_witness :
    coerce_unsized_info tcxW oracleSyn recW =
      ⟨(if oracleSyn.solve coerceUnsizedTraitId (.rawPtr (.array (.prim 0) 3) .mut)
            (.rawPtr (.slice (.prim 0)) .mut) = [] then []
          else [.fulfillmentErrors (oracleSyn.solve coerceUnsizedTraitId
            (.rawPtr (.array (.prim 0) 3) .mut) (.rawPtr (.slice (.prim 0)) .mut))])
        ++ (if oracleSyn.regionErrs = [] then [] else [.regionErrors oracleSyn.regionErrs]),
        [], [(coerceUnsizedTraitId, .rawPtr (.array (.prim 0) 3) .mut,
          .rawPtr (.slice (.prim 0)) .mut)], true, ⟨some 0⟩⟩ :=
  (coerce_adt_field_count_logic tcxW oracleSyn recW 1 1 (.cons (.array (.prim 0) 3) .nil)
    (.cons (.slice (.prim 0)) .nil) rfl rfl rfl rfl rfl).2.2
    0 (.rawPtr (.array (.prim 0) 3) .mut) (.rawPtr (.slice (.prim 0)) .mut) (by decide)

/-- C6: in the infringing-fields path, the validator emits the single
aggregated diagnostic whose notes are exactly the unmet sub-obligations
whose predicate differs from the root obligation's predicate, keyed by
(field type text, unmet predicate text) with every span producing the
same pair accumulated under one key, and the note keys are strictly
sorted (so there is exactly one note per distinct key, in deterministic
order). -/
theorem copy_obligation_notes_grouping (o : Oracle) (fields : List CopyField)
    (rec : ImplRecord)
    (h : o.canCopy rec.source = some (.infringingFields fields)) :
    visit_implementation_of_copy o rec =
      [.copyCannotBeImplemented rec.traitPathSpan (fields.map (·.fieldSpan))
        (copyErrorsAndBounds o fields).1 (copyErrorsAndBounds o fields).2]
    ∧ btreeSortedKeys (copyErrorsAndBounds o fields).1
    ∧ (∀ k s, btreeMem k s (copyErrorsAndBounds o fields).1 ↔
        (k, s) ∈ copyRecordedSpec o fields) := by
  refine ⟨?_, ?_, ?_⟩
  · unfold visit_implementation_of_copy
    rw [h]
  · rw [copyErrorsAndBounds_eq]
    exact btreeSortedKeys_ofList _ _ (by simp [btreeSortedKeys])
  · intro k s
    rw [copyErrorsAndBounds_eq]
    dsimp only
    rw [btreeMem_ofList]
    have hn := btreeMem_nil k s
    tauto

/-- C6 witness: the grouping applied to the concrete infringing-fields
record; its note keys are strictly sorted. -/
theorem copy_obligation_notes_grouping_witness :
    btreeSortedKeys (copyErrorsAndBounds oracleCopy fieldsC).1 :=
  (copy_obligation_notes_grouping oracleCopy fieldsC recCopy rfl).2.1

/-- C7: the destructor validator accepts a local ADT source type and an
unresolved (error) source type silently, and for every other source
type emits exactly the one `DropImplOnWrongItem` diagnostic at the
impl's self-type span; it performs no field-level analysis. -/
theorem drop_validator_local_adt_rule (tcx : Tcx) (rec : ImplRecord) :
    (∀ did s, rec.source = .adt did s → (tcx.adt did).isLocalDef = true →
        visit_implementation_of_drop tcx rec = [])
    ∧ (rec.source = .error → visit_implementation_of_drop tcx rec = [])
    ∧ (∀ did s, rec.source = .adt did s → (tcx.adt did).isLocalDef = false →
        visit_implementation_of_drop tcx rec = [.dropImplOnWrongItem rec.selfTySpan])
    ∧ ((∀ did s, rec.source ≠ .adt did s) → rec.source ≠ .error →
        visit_implementation_of_drop tcx rec = [.dropImplOnWrongItem rec.selfTySpan]) := by
  refine ⟨?_, ?_, ?_, ?_⟩
  · intro did s h hl
    unfold visit_implementation_of_drop
    rw [h]
    simp [hl]
  · intro h
    unfold visit_implementation_of_drop
    rw [h]
  · intro did s h hl
    unfold visit_implementation_of_drop
    rw [h]
    simp [hl]
  · intro hna he
    unfold visit_implementation_of_drop
    cases hs : rec.source with
    | adt did s => exact absurd hs (hna did s)
    | error => exact absurd hs he
    | _ => rfl

/-- C7 witness: a destructor impl on a primitive source type is rejected
with the structural-violation diagnostic at the self-type span. -/
theorem drop_validator_local_adt_rule_witness :
    visit_implementation_of_drop tcxW recPrim = [.dropImplOnWrongItem recPrim.selfTySpan] :=
  (drop_validator_local_adt_rule tcxW recPrim).2.2.2
    (by intro did s h; simp [recPrim] at h) (by decide)

/-- C8: when the copy-eligibility oracle answers "not an ADT" the copy
validator emits exactly the `CopyImplOnNonAdt` structural violation (at
the self-type span), and when it answers "has a custom destructor" it
emits exactly the dedicated destructor-conflict diagnostic (at the impl
span); in both cases no field analysis output is produced. -/
theorem copy_non_adt_and_destructor_rejections (o : Oracle) (rec : ImplRecord) :
    (o.canCopy rec.source = some .notAnAdt →
        visit_implementation_of_copy o rec = [.copyImplOnNonAdt rec.selfTySpan])
    ∧ (o.canCopy rec.source = some .hasDestructor →
        visit_implementation_of_copy o rec = [.copyImplOnTypeWithDtor rec.span]) := by
  constructor <;> intro h <;> unfold visit_implementation_of_copy <;> rw [h]

/-- C8 witness: both verdicts applied to a concrete record. -/
theorem copy_non_adt_and_destructor_rejections_witness :
    visit_implementation_of_copy oracleNotAdt recPrim = [.copyImplOnNonAdt recPrim.selfTySpan]
    ∧ visit_implementation_of_copy oracleDtor recPrim = [.copyImplOnTypeWithDtor recPrim.span] :=
  ⟨(copy_non_adt_and_destructor_rejections oracleNotAdt recPrim).1 rfl,
   (copy_non_adt_and_destructor_rejections oracleDtor recPrim).2 rfl⟩

/-- C9: for a dyn-dispatch impl between two struct instantiations of the
same definition whose representation is foreign-call-compatible or
packed, the `InvalidRepr` diagnostic is emitted first and the rejection
is non-fatal: the output is exactly that diagnostic followed by
everything the field scan, field-count logic and obligation solving of
`dispatchAdtFields` produce — which does not consult the representation
flags at all. -/
theorem dispatch_repr_violation_non_fatal (tcx : Tcx) (o : Oracle) (rec : ImplRecord)
    (didA didB : Nat) (sA sB : RTys)
    (h1 : rec.source = .adt didA sA) (h2 : rec.target = .adt didB sB)
    (hsA : (tcx.adt didA).isStruct = true) (hsB : (tcx.adt didB).isStruct = true)
    (hd : didA = didB)
    (hr : ((tcx.adt didA).reprC || (tcx.adt didA).reprPacked) = true) :
    visit_implementation_of_dispatch_from_dyn tcx o rec =
      ⟨.invalidDispatchFromDynDeclaration rec.span .invalidRepr ::
          (dispatchAdtFields o rec.span sA sB (tcx.adt didA).fields).diags,
        (dispatchAdtFields o rec.span sA sB (tcx.adt didA).fields).solved,
        (dispatchAdtFields o rec.span sA sB (tcx.adt didA).fields).regionsResolved⟩ := by
  subst hd
  unfold visit_implementation_of_dispatch_from_dyn
  rw [h1, h2]
  simp [hsA, hsB, hr]

/-- C9 witness: the `repr(C)` struct `adt2` is rejected with
`InvalidRepr` and the field analysis still runs afterwards. -/
theorem dispatch_repr_violation_non_fatal_witness :
    visit_implementation_of_dispatch_from_dyn tcxR oracleSyn recP2 =
      ⟨.invalidDispatchFromDynDeclaration recP2.span .invalidRepr ::
          (dispatchAdtFields oracleSyn recP2.span (.cons (.prim 1) .nil)
            (.cons (.prim 1) .nil) (tcxR.adt 2).fields).diags,
        (dispatchAdtFields oracleSyn recP2.span (.cons (.prim 1) .nil)
          (.cons (.prim 1) .nil) (tcxR.adt 2).fields).solved,
        (dispatchAdtFields oracleSyn recP2.span (.cons (.prim 1) .nil)
          (.cons (.prim 1) .nil) (tcxR.adt 2).fields).regionsResolved⟩ :=
  dispatch_repr_violation_non_fatal tcxR oracleSyn recP2 2 2 (.cons (.prim 1) .nil)
    (.cons (.prim 1) .nil) rfl rfl rfl rfl rfl rfl

/-- C10: in the dyn-dispatch validator a reference pair whose regions
are not proven equal or whose mutabilities differ, and a raw-pointer
pair with differing mutability, fall through the failing match guard to
the catch-all arm and are reported with the generic not-a-struct
diagnostic. -/
theorem dispatch_pointer_guard_fallthrough_not_a_struct (tcx : Tcx) (o : Oracle)
    (rec : ImplRecord) :
    (∀ rA tA mA rB tB mB, rec.source = .ref rA tA mA → rec.target = .ref rB tB mB →
        (o.regionEqOk rA rB && (mA == mB)) = false →
        visit_implementation_of_dispatch_from_dyn tcx o rec =
          ⟨[.invalidDispatchFromDynDeclaration rec.span .notAStruct], [], false⟩)
    ∧ (∀ tA mA tB mB, rec.source = .rawPtr tA mA → rec.target = .rawPtr tB mB →
        (mA == mB) = false →
        visit_implementation_of_dispatch_from_dyn tcx o rec =
          ⟨[.invalidDispatchFromDynDeclaration rec.span .notAStruct], [], false⟩) := by
  constructor
  · intro rA tA mA rB tB mB h1 h2 hg
    unfold visit_implementation_of_dispatch_from_dyn
    rw [h1, h2]
    simp [hg]
  · intro tA mA tB mB h1 h2 hg
    unfold visit_implementation_of_dispatch_from_dyn
    rw [h1, h2]
    simp [hg]

/-- C10 witness: a reference pair with equal regions but differing
mutability is reported as not-a-struct. -/
theorem dispatch_pointer_guard_fallthrough_not_a_struct_witness :
    visit_implementation_of_dispatch_from_dyn tcxW oracleSyn recG =
      ⟨[.invalidDispatchFromDynDeclaration recG.span .notAStruct], [], false⟩ :=
  (dispatch_pointer_guard_fallthrough_not_a_struct tcxW oracleSyn recG).1
    0 (.prim 0) .mut 0 (.prim 0) .not rfl rfl (by decide)
